import Mathlib

/-!
Shallow embedding of `src/apps/aria_gltf_processing/c_src/ufbx_nif.c`:
an Erlang NIF that flattens a `ufbx` native scene into an Erlang term IR.
Erlang terms are modelled by the inductive `Term`; doubles are only ever
copied by the code, never computed with, so they are modelled by their
64-bit pattern (`F64`).  External collaborators (the `ufbx` parser and the
animation bake step, both outside this repository) appear as oracle data:
each anim stack carries its bake outcome, and the NIF entry points take
the parse outcome as input.  Allocation (`enif_alloc_binary`) is an oracle
in the environment.
-/

/-- An IEEE-754 double modelled opaquely by its 64-bit pattern; the C code
only copies doubles into terms, it never computes with them. -/
structure F64 where
  bits : Nat
deriving DecidableEq, Repr, Inhabited

/-- Model of `ErlNifEnv` as far as this code observes it: an oracle telling
whether `enif_alloc_binary` succeeds for a given size. -/
structure Env where
  alloc : Nat → Bool
deriving Inhabited

/-- Model of an Erlang NIF term, covering exactly the constructors this
code uses: atoms, unsigned ints, doubles, Latin-1 char lists
(`enif_make_string`), binaries, lists, maps (association list of atom keys)
and 2-tuples. -/
inductive Term where
  | atom : String → Term
  | uint : Nat → Term
  | double : F64 → Term
  | charlist : String → Term
  | binary : List Nat → Term
  | list : List Term → Term
  | map : List (String × Term) → Term
  | tuple2 : Term → Term → Term
deriving Repr, Inhabited

/-- Model of `ufbx_string`: a length plus byte data. -/
structure UfbxString where
  length : Nat
  data : List Nat
deriving DecidableEq, Repr, Inhabited

structure UfbxVec2 where
  x : F64
  y : F64
deriving DecidableEq, Repr, Inhabited

structure UfbxVec3 where
  x : F64
  y : F64
  z : F64
deriving DecidableEq, Repr, Inhabited

structure UfbxVec4 where
  x : F64
  y : F64
  z : F64
  w : F64
deriving DecidableEq, Repr, Inhabited

structure UfbxQuat where
  x : F64
  y : F64
  z : F64
  w : F64
deriving DecidableEq, Repr, Inhabited

structure UfbxTransform where
  translation : UfbxVec3
  rotation : UfbxQuat
  scale : UfbxVec3
deriving DecidableEq, Repr, Inhabited

/-- Model of `ufbx_node` as far as the NIF reads it.  Pointer dereferences
`node->parent->typed_id`, `node->children.data[i]->typed_id` and
`node->mesh->typed_id` are shallow-embedded as the referenced ids
themselves (`none` models a null pointer). -/
structure UfbxNode where
  typed_id : Nat
  name : UfbxString
  parent : Option Nat
  children : List Nat
  local_transform : UfbxTransform
  mesh : Option Nat
deriving DecidableEq, Repr, Inhabited

/-- Model of a `ufbx_vertex_vec3` attribute (`exists`, `values`, `indices`). -/
structure UfbxVertexVec3 where
  exists_ : Bool
  values : List UfbxVec3
  indices : List Nat
deriving DecidableEq, Repr, Inhabited

/-- Model of a `ufbx_vertex_vec2` attribute (`exists`, `values`). -/
structure UfbxVertexVec2 where
  exists_ : Bool
  values : List UfbxVec2
deriving DecidableEq, Repr, Inhabited

/-- Model of `ufbx_mesh` as far as the NIF reads it; `materials` holds the
`typed_id` of each referenced material in forward order. -/
structure UfbxMesh where
  typed_id : Nat
  name : UfbxString
  vertex_position : UfbxVertexVec3
  vertex_normal : UfbxVertexVec3
  vertex_uv : UfbxVertexVec2
  materials : List Nat
deriving DecidableEq, Repr, Inhabited

/-- Model of a `ufbx_material_map`: presence flag, component count, value. -/
structure UfbxMaterialMap where
  has_value : Bool
  value_components : Nat
  value_vec3 : UfbxVec3
deriving DecidableEq, Repr, Inhabited

/-- The PBR material maps the NIF reads. -/
structure UfbxMaterialPbr where
  base_color : UfbxMaterialMap
  specular_color : UfbxMaterialMap
  emission_color : UfbxMaterialMap
deriving DecidableEq, Repr, Inhabited

/-- The legacy FBX material maps the NIF reads. -/
structure UfbxMaterialFbx where
  diffuse_color : UfbxMaterialMap
  specular_color : UfbxMaterialMap
  emission_color : UfbxMaterialMap
deriving DecidableEq, Repr, Inhabited

structure UfbxMaterial where
  typed_id : Nat
  name : UfbxString
  pbr : UfbxMaterialPbr
  fbx : UfbxMaterialFbx
deriving DecidableEq, Repr, Inhabited

structure UfbxTexture where
  typed_id : Nat
  name : UfbxString
  filename : UfbxString
deriving DecidableEq, Repr, Inhabited

/-- Model of `ufbx_baked_vec3`: one baked translation/scale keyframe. -/
structure UfbxBakedVec3 where
  time : F64
  value : UfbxVec3
deriving DecidableEq, Repr, Inhabited

/-- Model of `ufbx_baked_quat`: one baked rotation keyframe. -/
structure UfbxBakedQuat where
  time : F64
  value : UfbxQuat
deriving DecidableEq, Repr, Inhabited

/-- Model of `ufbx_baked_node`: per-node baked channel streams, each in the
bake result's own (time-increasing) order. -/
structure UfbxBakedNode where
  typed_id : Nat
  translation_keys : List UfbxBakedVec3
  rotation_keys : List UfbxBakedQuat
  scale_keys : List UfbxBakedVec3
deriving DecidableEq, Repr, Inhabited

/-- Model of `ufbx_baked_anim`: the baked nodes in the bake result's order. -/
structure UfbxBakedAnim where
  nodes : List UfbxBakedNode
deriving DecidableEq, Repr, Inhabited

/-- Model of `ufbx_anim_stack`.  The bake step `ufbx_bake_anim` is an
external collaborator (the resampler), so its outcome for this stack is
carried as oracle data: `none` models a bake failure, `some` a success. -/
structure UfbxAnimStack where
  typed_id : Nat
  name : UfbxString
  bakeResult : Option UfbxBakedAnim
deriving DecidableEq, Repr, Inhabited

structure UfbxMetadata where
  version : Nat
deriving DecidableEq, Repr, Inhabited

/-- Model of `ufbx_scene` as far as the NIF reads it: five array-backed
collections plus metadata, each in the native forward index order. -/
structure UfbxScene where
  metadata : UfbxMetadata
  nodes : List UfbxNode
  meshes : List UfbxMesh
  materials : List UfbxMaterial
  textures : List UfbxTexture
  anim_stacks : List UfbxAnimStack
deriving DecidableEq, Repr, Inhabited

/-- `enif_make_map_put`: replace the binding of `k` if present, otherwise
add it. -/
def mapPut (m : List (String × Term)) (k : String) (v : Term) :
    List (String × Term) :=
  if m.any (fun p => p.1 == k) then
    m.map (fun p => if p.1 == k then (k, v) else p)
  else m ++ [(k, v)]

/-- `enif_get_map_value` on an association list. -/
def mapGet (m : List (String × Term)) (k : String) : Option Term :=
  (m.find? (fun p => p.1 == k)).map (fun p => p.2)

/-- `enif_get_map_value` on a term: only maps have keys. -/
def Term.getKey : Term → String → Option Term
  | .map m, k => mapGet m k
  | _, _ => none

/-- The staging pattern every extractor uses: fill `keys[]`/`values[]`
arrays in program order, then `enif_make_map_put` them one by one into a
fresh map. -/
def buildMap (pairs : List (String × Term)) : Term :=
  .map (pairs.foldl (fun m p => mapPut m p.1 p.2) [])

/-- The C list-building loop shape `for (i = count; i > 0; i--) result =
cons(f(data[i-1]), result)`, unrolled from `i` down to `0` with
accumulator `acc`. -/
def prependLoopAux {β γ : Type} [Inhabited β] (f : β → γ) (data : List β) :
    Nat → List γ → List γ
  | 0, acc => acc
  | i + 1, acc => prependLoopAux f data i (f (data.getD i default) :: acc)

/-- A full backward walk over `data`, prepending into an initially empty
list (`result = enif_make_list(env, 0)` then the loop). -/
def prependLoop {β γ : Type} [Inhabited β] (f : β → γ) (data : List β) :
    List γ :=
  prependLoopAux f data data.length []

/-- `make_vec3`: a vec3 becomes the 3-element list of its components. -/
def make_vec3 (vec : UfbxVec3) : Term :=
  .list [.double vec.x, .double vec.y, .double vec.z]

/-- `make_vec4`: a vec4 becomes the 4-element list of its components. -/
def make_vec4 (vec : UfbxVec4) : Term :=
  .list [.double vec.x, .double vec.y, .double vec.z, .double vec.w]

/-- `make_string`: an empty `ufbx_string` becomes the empty Latin-1 char
list; otherwise a binary is allocated and the bytes copied.  On allocation
failure the atom `error` is returned in place of the value. -/
def make_string (env : Env) (str : UfbxString) : Term :=
  if str.length = 0 then .charlist ""
  else if env.alloc str.length then .binary (str.data.take str.length)
  else .atom "error"

/-- `make_vec3_list`: backward walk with prepend over a `ufbx_vec3_list`. -/
def make_vec3_list (l : List UfbxVec3) : Term :=
  .list (prependLoop make_vec3 l)

/-- `make_uint32_list`: backward walk with prepend over a
`ufbx_uint32_list`. -/
def make_uint32_list (l : List Nat) : Term :=
  .list (prependLoop Term.uint l)

/-- `extract_node`: stage `id`, `name`, optional `parent_id`, optional
`children`, the three transform fields, optional `mesh_id`, then put them
into a map. -/
def extract_node (env : Env) (node : UfbxNode) (node_id : Nat) : Term :=
  buildMap
    ([("id", .uint node_id), ("name", make_string env node.name)]
      ++ (match node.parent with
          | some pid => [("parent_id", Term.uint pid)]
          | none => [])
      ++ (if node.children.length > 0 then
            [("children", Term.list (prependLoop Term.uint node.children))]
          else [])
      ++ [("translation", make_vec3 node.local_transform.translation),
          ("rotation",
            make_vec4
              ⟨node.local_transform.rotation.x, node.local_transform.rotation.y,
                node.local_transform.rotation.z, node.local_transform.rotation.w⟩),
          ("scale", make_vec3 node.local_transform.scale)]
      ++ (match node.mesh with
          | some mid => [("mesh_id", Term.uint mid)]
          | none => []))

/-- One texcoord entry: `[u, v]`. -/
def make_vec2_term (uv : UfbxVec2) : Term :=
  .list [.double uv.x, .double uv.y]

/-- `extract_mesh`: `id` and `name` always; `positions` only when the
position attribute exists and is non-empty, with `indices` nested inside
that conditional; `normals`, `texcoords`, `material_ids` independently
optional. -/
def extract_mesh (env : Env) (mesh : UfbxMesh) : Term :=
  buildMap
    ([("id", .uint mesh.typed_id), ("name", make_string env mesh.name)]
      ++ (if mesh.vertex_position.exists_ = true ∧
            mesh.vertex_position.values.length > 0 then
            [("positions", make_vec3_list mesh.vertex_position.values)]
              ++ (if mesh.vertex_position.indices.length > 0 then
                    [("indices", make_uint32_list mesh.vertex_position.indices)]
                  else [])
          else [])
      ++ (if mesh.vertex_normal.exists_ = true ∧
            mesh.vertex_normal.values.length > 0 then
            [("normals", make_vec3_list mesh.vertex_normal.values)]
          else [])
      ++ (if mesh.vertex_uv.exists_ = true ∧
            mesh.vertex_uv.values.length > 0 then
            [("texcoords", Term.list (prependLoop make_vec2_term mesh.vertex_uv.values))]
          else [])
      ++ (if mesh.materials.length > 0 then
            [("material_ids", Term.list (prependLoop Term.uint mesh.materials))]
          else []))

/-- One color property of `extract_material`: try the PBR map, fall back
to the legacy FBX map, emit nothing when neither has a value with at least
3 components. -/
def colorEntry (key : String) (pbrMap fbxMap : UfbxMaterialMap) :
    List (String × Term) :=
  if pbrMap.has_value = true ∧ 3 ≤ pbrMap.value_components then
    [(key, make_vec3 pbrMap.value_vec3)]
  else if fbxMap.has_value = true ∧ 3 ≤ fbxMap.value_components then
    [(key, make_vec3 fbxMap.value_vec3)]
  else []

/-- `extract_material`: `id`, `name`, then the three independently
resolved color properties. -/
def extract_material (env : Env) (material : UfbxMaterial) : Term :=
  buildMap
    ([("id", .uint material.typed_id), ("name", make_string env material.name)]
      ++ colorEntry "diffuse_color" material.pbr.base_color
          material.fbx.diffuse_color
      ++ colorEntry "specular_color" material.pbr.specular_color
          material.fbx.specular_color
      ++ colorEntry "emissive_color" material.pbr.emission_color
          material.fbx.emission_color)

/-- `extract_texture`: `id`, `name`, and `file_path` only when the source
filename is non-empty. -/
def extract_texture (env : Env) (texture : UfbxTexture) : Term :=
  buildMap
    ([("id", .uint texture.typed_id), ("name", make_string env texture.name)]
      ++ (if texture.filename.length > 0 then
            [("file_path", make_string env texture.filename)]
          else []))

/-- `extract_vec3_keyframe`: a map with `time` and the named vec3 field. -/
def extract_vec3_keyframe (key : UfbxBakedVec3) (field_name : String) : Term :=
  buildMap [("time", .double key.time), (field_name, make_vec3 key.value)]

/-- `extract_quat_keyframe`: a map with `time` and `rotation` as a
4-element list. -/
def extract_quat_keyframe (key : UfbxBakedQuat) : Term :=
  buildMap
    [("time", .double key.time),
     ("rotation",
       .list [.double key.value.x, .double key.value.y, .double key.value.z,
         .double key.value.w])]

/-- The per-keyframe re-tagging in `extract_animation`: build a fresh map,
put `node_id`, then copy `time` and the channel field out of the inner
keyframe map when present. -/
def tagKeyframe (node_id : Nat) (keyframe : Term) (field : String) : Term :=
  let m0 := mapPut [] "node_id" (.uint node_id)
  let m1 := match keyframe.getKey "time" with
    | some v => mapPut m0 "time" v
    | none => m0
  let m2 := match keyframe.getKey field with
    | some v => mapPut m1 field v
    | none => m1
  .map m2

/-- One channel loop of `extract_animation`: `for (j = count; j > 0; j--)`
prepending the tagged keyframe for `data[j-1]` onto the shared
accumulator. -/
def animChannelLoopAux {κ : Type} [Inhabited κ] (node_id : Nat)
    (field : String) (mk : κ → Term) (data : List κ) :
    Nat → List Term → List Term
  | 0, acc => acc
  | j + 1, acc =>
    animChannelLoopAux node_id field mk data j
      (tagKeyframe node_id (mk (data.getD j default)) field :: acc)

/-- The body of the outer node loop in `extract_animation`: the
translation channel loop, then the rotation channel loop, then the scale
channel loop, all prepending into the same accumulator. -/
def nodeKeyframes (baked_node : UfbxBakedNode) (acc : List Term) :
    List Term :=
  let acc := animChannelLoopAux baked_node.typed_id "translation"
    (fun k => extract_vec3_keyframe k "translation")
    baked_node.translation_keys baked_node.translation_keys.length acc
  let acc := animChannelLoopAux baked_node.typed_id "rotation"
    extract_quat_keyframe baked_node.rotation_keys
    baked_node.rotation_keys.length acc
  animChannelLoopAux baked_node.typed_id "scale"
    (fun k => extract_vec3_keyframe k "scale")
    baked_node.scale_keys baked_node.scale_keys.length acc

/-- The outer loop of `extract_animation`: `for (i = nodes.count; i > 0;
i--)` running the three channel loops of `nodes.data[i-1]`. -/
def allKeyframesAux (nodes : List UfbxBakedNode) :
    Nat → List Term → List Term
  | 0, acc => acc
  | i + 1, acc => allKeyframesAux nodes i (nodeKeyframes (nodes.getD i default) acc)

/-- `extract_animation`: `id` from the owning stack, `name`, and the
keyframes accumulated by the nested loops. -/
def extract_animation (env : Env) (baked : UfbxBakedAnim)
    (anim_stack : UfbxAnimStack) : Term :=
  buildMap
    [("id", .uint anim_stack.typed_id),
     ("name", make_string env anim_stack.name),
     ("keyframes", .list (allKeyframesAux baked.nodes baked.nodes.length []))]

/-- The anim-stack loop of `extract_scene_data`: walk the stacks backward,
bake each (the oracle `bakeResult`), and prepend a track only when the
bake succeeded. -/
def animationsLoopAux (env : Env) (stackList : List UfbxAnimStack) :
    Nat → List Term → List Term
  | 0, acc => acc
  | i + 1, acc =>
    animationsLoopAux env stackList i
      (match (stackList.getD i default).bakeResult with
       | some baked => extract_animation env baked (stackList.getD i default) :: acc
       | none => acc)

/-- The version label of `extract_scene_data`: `snprintf(version_str, 32,
"FBX %u.%u", version / 1000, (version % 1000) / 100)` (never truncated,
since the formatted text is at most 17 bytes for a 32-bit version). -/
def version_string (version : Nat) : String :=
  "FBX " ++ toString (version / 1000) ++ "." ++ toString (version % 1000 / 100)

/-- `extract_scene_data`: build the five collections by backward walks
with prepend, bake the animations, format the version label, and put the
six entries into the result map. -/
def extract_scene_data (env : Env) (scene : UfbxScene) : Term :=
  let nodes := prependLoop (fun n => extract_node env n n.typed_id) scene.nodes
  let meshes := prependLoop (extract_mesh env) scene.meshes
  let materials := prependLoop (extract_material env) scene.materials
  let textures := prependLoop (extract_texture env) scene.textures
  let animations :=
    animationsLoopAux env scene.anim_stacks scene.anim_stacks.length []
  buildMap
    [("version", .charlist (version_string scene.metadata.version)),
     ("nodes", .list nodes),
     ("meshes", .list meshes),
     ("materials", .list materials),
     ("textures", .list textures),
     ("animations", .list animations)]

/-- Outcome of the external asset-parse step (`ufbx_load_file` /
`ufbx_load_memory`): a native scene, or an error whose `description` the
NIF reads. -/
inductive ParseResult where
  | ok : UfbxScene → ParseResult
  | fail : String → ParseResult
deriving Repr, Inhabited

/-- `load_fbx_nif` after argument inspection: on parse failure return
`(error, Description)` with the parser's diagnostic as a char list; on
success return `(ok, SceneData)`. -/
def load_fbx_nif (env : Env) (parse : ParseResult) : Term :=
  match parse with
  | .fail description => .tuple2 (.atom "error") (.charlist description)
  | .ok scene => .tuple2 (.atom "ok") (extract_scene_data env scene)

/-- `load_fbx_binary_nif` after argument inspection: identical post-parse
logic to `load_fbx_nif`. -/
def load_fbx_binary_nif (env : Env) (parse : ParseResult) : Term :=
  match parse with
  | .fail description => .tuple2 (.atom "error") (.charlist description)
  | .ok scene => .tuple2 (.atom "ok") (extract_scene_data env scene)

/-- The tagged term stream one vec3 channel (translation or scale) of a
baked node contributes, read off in source order. -/
def taggedVec3Channel (node_id : Nat) (field : String)
    (keyData : List UfbxBakedVec3) : List Term :=
  keyData.map (fun k => tagKeyframe node_id (extract_vec3_keyframe k field) field)

/-- The tagged term stream the rotation channel of a baked node
contributes, read off in source order. -/
def taggedQuatChannel (node_id : Nat) (keyData : List UfbxBakedQuat) :
    List Term :=
  keyData.map (fun k => tagKeyframe node_id (extract_quat_keyframe k) "rotation")

/-- The contiguous block of keyframes one baked node contributes to the
track, in the order the accumulated list actually carries them: the scale
stream, then the rotation stream, then the translation stream. -/
def nodeBlock (bn : UfbxBakedNode) : List Term :=
  taggedVec3Channel bn.typed_id "scale" bn.scale_keys
    ++ taggedQuatChannel bn.typed_id bn.rotation_keys
    ++ taggedVec3Channel bn.typed_id "translation" bn.translation_keys

/-- The track a stack contributes to `animations`: one term when its bake
succeeds, nothing when it fails. -/
def stackTrack (env : Env) (s : UfbxAnimStack) : Option Term :=
  s.bakeResult.map (fun baked => extract_animation env baked s)

/-- An environment in which every allocation succeeds. -/
def env0 : Env := ⟨fun _ => true⟩

/-- An environment in which every allocation fails. -/
def envNoAlloc : Env := ⟨fun _ => false⟩

/-- The empty native string. -/
def str0 : UfbxString := ⟨0, []⟩

/-- A 3-byte native string ("ABC"). -/
def strABC : UfbxString := ⟨3, [65, 66, 67]⟩

/-- An identity-like local transform used by concrete scenes. -/
def tf0 : UfbxTransform :=
  ⟨⟨⟨0⟩, ⟨0⟩, ⟨0⟩⟩, ⟨⟨0⟩, ⟨0⟩, ⟨0⟩, ⟨1⟩⟩, ⟨⟨1⟩, ⟨1⟩, ⟨1⟩⟩⟩

/-- An otherwise empty scene with native numeric version 7400. -/
def scene7400 : UfbxScene :=
  { metadata := ⟨7400⟩, nodes := [], meshes := [], materials := [],
    textures := [], anim_stacks := [] }

/-- An otherwise empty scene with native numeric version 6100. -/
def scene6100 : UfbxScene :=
  { metadata := ⟨6100⟩, nodes := [], meshes := [], materials := [],
    textures := [], anim_stacks := [] }

/-- A baked node with one translation keyframe (time bits 1) and one
scale keyframe (time bits 2), no rotation keyframes. -/
def animCxNode : UfbxBakedNode :=
  { typed_id := 5,
    translation_keys := [⟨⟨1⟩, ⟨⟨10⟩, ⟨11⟩, ⟨12⟩⟩⟩],
    rotation_keys := [],
    scale_keys := [⟨⟨2⟩, ⟨⟨20⟩, ⟨21⟩, ⟨22⟩⟩⟩] }

/-- The bake result holding just `animCxNode`. -/
def animCxBaked : UfbxBakedAnim := ⟨[animCxNode]⟩

/-- The stack owning `animCxBaked`. -/
def animCxStack : UfbxAnimStack :=
  { typed_id := 7, name := str0, bakeResult := some animCxBaked }

/-- The translation keyframe of `animCxNode` as the code emits it. -/
def animCxTransKf : Term :=
  .map [("node_id", .uint 5), ("time", .double ⟨1⟩),
    ("translation", .list [.double ⟨10⟩, .double ⟨11⟩, .double ⟨12⟩])]

/-- The scale keyframe of `animCxNode` as the code emits it. -/
def animCxScaleKf : Term :=
  .map [("node_id", .uint 5), ("time", .double ⟨2⟩),
    ("scale", .list [.double ⟨20⟩, .double ⟨21⟩, .double ⟨22⟩])]

/-- A texture whose name needs a 3-byte allocation. -/
def textureABC : UfbxTexture := { typed_id := 0, name := strABC, filename := str0 }

/-- A scene holding just `textureABC`; extracting it under `envNoAlloc`
exercises the allocation-failure path of `make_string`. -/
def sceneABC : UfbxScene :=
  { metadata := ⟨7400⟩, nodes := [], meshes := [], materials := [],
    textures := [textureABC], anim_stacks := [] }

/-- A mesh whose position attribute does not exist and is empty, while its
index buffer is non-empty. -/
def meshNoPos : UfbxMesh :=
  { typed_id := 0, name := str0,
    vertex_position := ⟨false, [], [3, 4, 5]⟩,
    vertex_normal := ⟨false, [], []⟩,
    vertex_uv := ⟨false, []⟩,
    materials := [] }

/-- A node with no parent and no mesh, child id 1. -/
def nodeParentW : UfbxNode :=
  { typed_id := 0, name := str0, parent := none, children := [1],
    local_transform := tf0, mesh := none }

/-- A node with parent id 0 and no children. -/
def nodeChildW : UfbxNode :=
  { typed_id := 1, name := str0, parent := some 0, children := [],
    local_transform := tf0, mesh := none }

/-- A two-node scene where node 0 is the parent of node 1, with mutually
consistent native parent/child references. -/
def sceneTwoNodes : UfbxScene :=
  { metadata := ⟨7400⟩, nodes := [nodeParentW, nodeChildW], meshes := [],
    materials := [], textures := [], anim_stacks := [] }

/-- An animation stack whose bake fails. -/
def stackFailW : UfbxAnimStack := { typed_id := 0, name := str0, bakeResult := none }

/-- An animation stack whose bake succeeds with an empty bake result. -/
def stackOkW : UfbxAnimStack :=
  { typed_id := 1, name := str0, bakeResult := some ⟨[]⟩ }

/-- A scene with two animation stacks: the first fails to bake, the
second succeeds. -/
def sceneTwoStacks : UfbxScene :=
  { metadata := ⟨7400⟩, nodes := [], meshes := [], materials := [],
    textures := [], anim_stacks := [stackFailW, stackOkW] }

/-- Unrolling the backward prepend loop: after running it down from `i`,
the accumulator carries the first `i` source elements mapped in forward
order, in front of the initial accumulator. -/
theorem prependLoopAux_eq {β γ : Type} [Inhabited β] (f : β → γ)
    (data : List β) :
    ∀ (i : Nat), i ≤ data.length → ∀ (acc : List γ),
      prependLoopAux f data i acc = (data.take i).map f ++ acc := by
  intro i
  induction i with
  | zero => intro _ acc; simp [prependLoopAux]
  | succ n ih =>
    intro h acc
    have hn : n < data.length := Nat.lt_of_succ_le h
    rw [prependLoopAux, ih (Nat.le_of_lt hn), List.getD_eq_getElem data default hn,
      List.take_succ, List.getElem?_eq_getElem hn]
    simp only [Option.toList_some, List.map_append, List.map_cons, List.map_nil,
      List.append_assoc, List.singleton_append, List.cons_append, List.nil_append]

/-- A full backward walk with prepend produces the forward-order map. -/
theorem prependLoop_eq_map {β γ : Type} [Inhabited β] (f : β → γ)
    (data : List β) : prependLoop f data = data.map f := by
  rw [prependLoop, prependLoopAux_eq f data data.length (Nat.le_refl _)]
  simp

/-- Unrolling one channel loop of `extract_animation`: it prepends the
forward-order tagged stream of its first `j` keys onto the accumulator. -/
theorem animChannelLoopAux_eq {κ : Type} [Inhabited κ] (node_id : Nat)
    (field : String) (mk : κ → Term) (data : List κ) :
    ∀ (j : Nat), j ≤ data.length → ∀ (acc : List Term),
      animChannelLoopAux node_id field mk data j acc
        = (data.take j).map (fun k => tagKeyframe node_id (mk k) field) ++ acc := by
  intro j
  induction j with
  | zero => intro _ acc; simp [animChannelLoopAux]
  | succ n ih =>
    intro h acc
    have hn : n < data.length := Nat.lt_of_succ_le h
    rw [animChannelLoopAux, ih (Nat.le_of_lt hn),
      List.getD_eq_getElem data default hn, List.take_succ,
      List.getElem?_eq_getElem hn]
    simp only [Option.toList_some, List.map_append, List.map_cons, List.map_nil,
      List.append_assoc, List.singleton_append, List.cons_append, List.nil_append]

/-- The three channel loops of one baked node put that node's block —
scale stream, then rotation stream, then translation stream — in front of
the accumulator. -/
theorem nodeKeyframes_eq (bn : UfbxBakedNode) (acc : List Term) :
    nodeKeyframes bn acc = nodeBlock bn ++ acc := by
  rw [nodeKeyframes]
  rw [animChannelLoopAux_eq bn.typed_id "translation" _ _ _ (Nat.le_refl _)]
  rw [animChannelLoopAux_eq bn.typed_id "rotation" _ _ _ (Nat.le_refl _)]
  rw [animChannelLoopAux_eq bn.typed_id "scale" _ _ _ (Nat.le_refl _)]
  simp [nodeBlock, taggedVec3Channel, taggedQuatChannel, List.take_length]

/-- Unrolling the outer node loop of `extract_animation`: the accumulated
keyframes are the per-node blocks of the first `i` baked nodes in the bake
result's own order. -/
theorem allKeyframesAux_eq (nodes : List UfbxBakedNode) :
    ∀ (i : Nat), i ≤ nodes.length → ∀ (acc : List Term),
      allKeyframesAux nodes i acc = (nodes.take i).flatMap nodeBlock ++ acc := by
  intro i
  induction i with
  | zero => intro _ acc; simp [allKeyframesAux]
  | succ n ih =>
    intro h acc
    have hn : n < nodes.length := Nat.lt_of_succ_le h
    rw [allKeyframesAux, ih (Nat.le_of_lt hn), nodeKeyframes_eq,
      List.getD_eq_getElem nodes default hn, List.take_succ,
      List.getElem?_eq_getElem hn]
    simp only [Option.toList_some, List.flatMap_append, List.flatMap_cons,
      List.flatMap_nil, List.append_nil, List.append_assoc]

/-- The keyframes field of a track is the concatenation of the per-node
blocks in bake order. -/
theorem extract_animation_keyframes (env : Env) (baked : UfbxBakedAnim)
    (anim_stack : UfbxAnimStack) :
    (extract_animation env baked anim_stack).getKey "keyframes"
      = some (.list (baked.nodes.flatMap nodeBlock)) := by
  rw [show (extract_animation env baked anim_stack).getKey "keyframes"
      = some (.list (allKeyframesAux baked.nodes baked.nodes.length [])) from rfl]
  rw [allKeyframesAux_eq baked.nodes baked.nodes.length (Nat.le_refl _)]
  simp [List.take_length]

/-- Unrolling the anim-stack loop of `extract_scene_data`: the accumulated
tracks are exactly those of the first `i` stacks whose bake succeeded, in
forward stack order. -/
theorem animationsLoopAux_eq (env : Env) (stackList : List UfbxAnimStack) :
    ∀ (i : Nat), i ≤ stackList.length → ∀ (acc : List Term),
      animationsLoopAux env stackList i acc
        = (stackList.take i).filterMap (stackTrack env) ++ acc := by
  intro i
  induction i with
  | zero => intro _ acc; simp [animationsLoopAux]
  | succ n ih =>
    intro h acc
    have hn : n < stackList.length := Nat.lt_of_succ_le h
    rw [animationsLoopAux, List.getD_eq_getElem stackList default hn,
      List.take_succ, List.getElem?_eq_getElem hn]
    rcases hb : stackList[n].bakeResult with _ | baked
    · rw [ih (Nat.le_of_lt hn)]
      simp only [Option.toList_some, List.filterMap_append, List.filterMap_cons,
        stackTrack, hb, Option.map_none', List.filterMap_nil, List.append_nil,
        List.append_assoc]
    · rw [ih (Nat.le_of_lt hn)]
      simp only [Option.toList_some, List.filterMap_append, List.filterMap_cons,
        stackTrack, hb, Option.map_some', List.filterMap_nil, List.append_nil,
        List.append_assoc, List.cons_append, List.nil_append]

/-- The animations field of the scene IR keeps exactly the stacks whose
bake succeeded, one track each, in forward stack order. -/
theorem extract_scene_animations (env : Env) (scene : UfbxScene) :
    (extract_scene_data env scene).getKey "animations"
      = some (.list (scene.anim_stacks.filterMap (stackTrack env))) := by
  rw [show (extract_scene_data env scene).getKey "animations"
      = some (.list (animationsLoopAux env scene.anim_stacks
          scene.anim_stacks.length [])) from rfl]
  rw [animationsLoopAux_eq env scene.anim_stacks scene.anim_stacks.length
    (Nat.le_refl _)]
  simp [List.take_length]

/-- The id field of an extracted node. -/
theorem extract_node_id (env : Env) (node : UfbxNode) (node_id : Nat) :
    (extract_node env node node_id).getKey "id" = some (.uint node_id) := by
  rcases node with ⟨id, name, parent, children, tf, mesh⟩
  rcases parent <;> rcases mesh <;> rcases children with _ | ⟨c, cs⟩ <;>
    simp [extract_node, buildMap, mapPut, Term.getKey, mapGet]

/-- The parent_id field of an extracted node is present exactly when the
native node has a parent, and carries the parent's typed id. -/
theorem extract_node_parent (env : Env) (node : UfbxNode) (node_id : Nat) :
    (extract_node env node node_id).getKey "parent_id"
      = node.parent.map (fun p => Term.uint p) := by
  rcases node with ⟨id, name, parent, children, tf, mesh⟩
  rcases parent <;> rcases mesh <;> rcases children with _ | ⟨c, cs⟩ <;>
    simp [extract_node, buildMap, mapPut, Term.getKey, mapGet]

/-- The mesh_id field of an extracted node is present exactly when the
native node has an attached mesh, and carries that mesh's typed id. -/
theorem extract_node_mesh (env : Env) (node : UfbxNode) (node_id : Nat) :
    (extract_node env node node_id).getKey "mesh_id"
      = node.mesh.map (fun m => Term.uint m) := by
  rcases node with ⟨id, name, parent, children, tf, mesh⟩
  rcases parent <;> rcases mesh <;> rcases children with _ | ⟨c, cs⟩ <;>
    simp [extract_node, buildMap, mapPut, Term.getKey, mapGet]

/-- The children field of an extracted node is present exactly when the
native node has children, and lists their typed ids in forward order. -/
theorem extract_node_children (env : Env) (node : UfbxNode) (node_id : Nat) :
    (extract_node env node node_id).getKey "children"
      = (if node.children.length > 0 then
          some (.list (node.children.map Term.uint))
        else none) := by
  rcases node with ⟨id, name, parent, children, tf, mesh⟩
  rcases parent <;> rcases mesh <;> rcases children with _ | ⟨c, cs⟩ <;>
    simp [extract_node, buildMap, mapPut, Term.getKey, mapGet, prependLoop_eq_map]

/-- The positions field of an extracted mesh is present exactly when the
native position attribute exists and is non-empty. -/
theorem extract_mesh_positions (env : Env) (mesh : UfbxMesh) :
    (extract_mesh env mesh).getKey "positions"
      = (if mesh.vertex_position.exists_ = true ∧
            mesh.vertex_position.values.length > 0 then
          some (make_vec3_list mesh.vertex_position.values)
        else none) := by
  by_cases h1 : mesh.vertex_position.exists_ = true ∧
      mesh.vertex_position.values.length > 0 <;>
    by_cases h2 : mesh.vertex_position.indices.length > 0 <;>
    by_cases h3 : mesh.vertex_normal.exists_ = true ∧
      mesh.vertex_normal.values.length > 0 <;>
    by_cases h4 : mesh.vertex_uv.exists_ = true ∧
      mesh.vertex_uv.values.length > 0 <;>
    by_cases h5 : mesh.materials.length > 0 <;>
    simp [extract_mesh, buildMap, mapPut, Term.getKey, mapGet, h1, h2, h3, h4, h5]

/-- The indices field of an extracted mesh is present exactly when the
positions conditional was taken and the native index buffer is
non-empty. -/
theorem extract_mesh_indices (env : Env) (mesh : UfbxMesh) :
    (extract_mesh env mesh).getKey "indices"
      = (if (mesh.vertex_position.exists_ = true ∧
            mesh.vertex_position.values.length > 0) ∧
            mesh.vertex_position.indices.length > 0 then
          some (make_uint32_list mesh.vertex_position.indices)
        else none) := by
  by_cases h1 : mesh.vertex_position.exists_ = true ∧
      mesh.vertex_position.values.length > 0 <;>
    by_cases h2 : mesh.vertex_position.indices.length > 0 <;>
    by_cases h3 : mesh.vertex_normal.exists_ = true ∧
      mesh.vertex_normal.values.length > 0 <;>
    by_cases h4 : mesh.vertex_uv.exists_ = true ∧
      mesh.vertex_uv.values.length > 0 <;>
    by_cases h5 : mesh.materials.length > 0 <;>
    simp [extract_mesh, buildMap, mapPut, Term.getKey, mapGet, h1, h2, h3, h4, h5]

/-- Claim C1, counterexample: on an otherwise empty scene with native
numeric version 7400 the assembled IR's version field is the char list
"FBX 7.4", which is not the string "7.4" the claim states (and version
6100 yields "FBX 6.1", not "6.1"). -/
theorem version_label_cx :
    (extract_scene_data env0 scene7400).getKey "version"
        = some (Term.charlist "FBX 7.4")
      ∧ (extract_scene_data env0 scene6100).getKey "version"
        = some (Term.charlist "FBX 6.1")
      ∧ Term.charlist "FBX 7.4" ≠ Term.charlist "7.4" := by
  refine ⟨rfl, rfl, ?_⟩
  simp

/-- Claim C1, amended: for every native scene with numeric version v, the
version field of the assembled Scene IR is the char list
"FBX <major>.<minor>" where major = v / 1000 and minor = (v % 1000) / 100
with integer division. -/
theorem version_label_amended (env : Env) (scene : UfbxScene) :
    (extract_scene_data env scene).getKey "version"
      = some (.charlist ("FBX " ++ toString (scene.metadata.version / 1000)
          ++ "." ++ toString (scene.metadata.version % 1000 / 100))) := rfl

/-- Claim C2, counterexample: for a baked node with one translation
keyframe and one scale keyframe, the track's keyframes list carries the
scale keyframe first, so the claimed per-node channel concatenation order
(translation, rotation, scale) does not hold. -/
theorem anim_channel_order_cx :
    (extract_animation env0 animCxBaked animCxStack).getKey "keyframes"
        = some (.list [animCxScaleKf, animCxTransKf])
      ∧ Term.list [animCxScaleKf, animCxTransKf]
        ≠ Term.list [animCxTransKf, animCxScaleKf] := by
  refine ⟨rfl, ?_⟩
  simp [animCxScaleKf, animCxTransKf]

/-- Claim C2, amended: for every successfully baked stack, the track's
keyframes list keeps all keyframes of one node contiguous, visits nodes in
the bake result's own order, concatenates the channel streams per node in
the order (scale, rotation, translation), and keeps each channel stream in
its baked source order. -/
theorem anim_keyframe_order (env : Env) (baked : UfbxBakedAnim)
    (anim_stack : UfbxAnimStack) :
    (extract_animation env baked anim_stack).getKey "keyframes"
      = some (.list (baked.nodes.flatMap (fun bn =>
          bn.scale_keys.map (fun k =>
            Term.map [("node_id", .uint bn.typed_id), ("time", .double k.time),
              ("scale", make_vec3 k.value)])
          ++ bn.rotation_keys.map (fun k =>
            Term.map [("node_id", .uint bn.typed_id), ("time", .double k.time),
              ("rotation", .list [.double k.value.x, .double k.value.y,
                .double k.value.z, .double k.value.w])])
          ++ bn.translation_keys.map (fun k =>
            Term.map [("node_id", .uint bn.typed_id), ("time", .double k.time),
              ("translation", make_vec3 k.value)])))) := by
  rw [extract_animation_keyframes]
  rfl

/-- Claim C3, code divergence: when allocation fails while duplicating a
non-empty name, `make_string` returns the atom `error` as if it were a
value; the record embeds that sentinel in its name field, and the whole
load call still returns an ok tuple instead of a distinct error. -/
theorem alloc_failure_sentinel :
    make_string envNoAlloc strABC = Term.atom "error"
      ∧ (extract_texture envNoAlloc textureABC).getKey "name"
        = some (Term.atom "error")
      ∧ load_fbx_nif envNoAlloc (ParseResult.ok sceneABC)
        = Term.tuple2 (.atom "ok") (extract_scene_data envNoAlloc sceneABC) :=
  ⟨rfl, rfl, rfl⟩

/-- Claim C4: every list built by prepending while walking the source
collection backward equals the forward-order map over that collection:
generically for the loop shape, for `make_vec3_list` and
`make_uint32_list`, for the four entity collections of the scene IR, for
a node's children, and for each animation channel loop relative to its
accumulator. -/
theorem list_fields_forward_order :
    (∀ (β γ : Type) (_inst : Inhabited β) (f : β → γ) (data : List β),
        prependLoop f data = data.map f)
      ∧ (∀ (l : List UfbxVec3), make_vec3_list l = .list (l.map make_vec3))
      ∧ (∀ (u : List Nat), make_uint32_list u = .list (u.map Term.uint))
      ∧ (∀ (env : Env) (scene : UfbxScene),
          (extract_scene_data env scene).getKey "nodes"
            = some (.list (scene.nodes.map (fun n => extract_node env n n.typed_id))))
      ∧ (∀ (env : Env) (scene : UfbxScene),
          (extract_scene_data env scene).getKey "meshes"
            = some (.list (scene.meshes.map (extract_mesh env))))
      ∧ (∀ (env : Env) (scene : UfbxScene),
          (extract_scene_data env scene).getKey "materials"
            = some (.list (scene.materials.map (extract_material env))))
      ∧ (∀ (env : Env) (scene : UfbxScene),
          (extract_scene_data env scene).getKey "textures"
            = some (.list (scene.textures.map (extract_texture env))))
      ∧ (∀ (env : Env) (node : UfbxNode) (node_id : Nat),
          (extract_node env node node_id).getKey "children"
            = (if node.children.length > 0 then
                some (.list (node.children.map Term.uint))
              else none))
      ∧ (∀ (κ : Type) (_inst : Inhabited κ) (node_id : Nat) (field : String)
          (mk : κ → Term) (data : List κ) (acc : List Term),
          animChannelLoopAux node_id field mk data data.length acc
            = data.map (fun k => tagKeyframe node_id (mk k) field) ++ acc) := by
  refine ⟨?_, ?_, ?_, ?_, ?_, ?_, ?_, ?_, ?_⟩
  · intro β γ _inst f data
    exact prependLoop_eq_map f data
  · intro l
    rw [make_vec3_list, prependLoop_eq_map]
  · intro u
    rw [make_uint32_list, prependLoop_eq_map]
  · intro env scene
    rw [show (extract_scene_data env scene).getKey "nodes"
        = some (.list (prependLoop (fun n => extract_node env n n.typed_id)
          scene.nodes)) from rfl, prependLoop_eq_map]
  · intro env scene
    rw [show (extract_scene_data env scene).getKey "meshes"
        = some (.list (prependLoop (extract_mesh env) scene.meshes)) from rfl,
      prependLoop_eq_map]
  · intro env scene
    rw [show (extract_scene_data env scene).getKey "materials"
        = some (.list (prependLoop (extract_material env) scene.materials)) from rfl,
      prependLoop_eq_map]
  · intro env scene
    rw [show (extract_scene_data env scene).getKey "textures"
        = some (.list (prependLoop (extract_texture env) scene.textures)) from rfl,
      prependLoop_eq_map]
  · intro env node node_id
    exact extract_node_children env node node_id
  · intro κ _inst node_id field mk data acc
    rw [animChannelLoopAux_eq node_id field mk data data.length (Nat.le_refl _)]
    simp [List.take_length]

/-- Claim C8: on parse failure each load entry point returns an error
tuple carrying the parser's diagnostic verbatim and no scene data; on
parse success it returns an ok tuple with the fully assembled IR; both
entry points behave identically. -/
theorem load_all_or_nothing (env : Env) (description : String)
    (scene : UfbxScene) (parse : ParseResult) :
    load_fbx_nif env (.fail description)
        = Term.tuple2 (.atom "error") (.charlist description)
      ∧ load_fbx_nif env (.ok scene)
        = Term.tuple2 (.atom "ok") (extract_scene_data env scene)
      ∧ load_fbx_binary_nif env (.fail description)
        = Term.tuple2 (.atom "error") (.charlist description)
      ∧ load_fbx_binary_nif env (.ok scene)
        = Term.tuple2 (.atom "ok") (extract_scene_data env scene)
      ∧ load_fbx_binary_nif env parse = load_fbx_nif env parse := by
  refine ⟨rfl, rfl, rfl, rfl, ?_⟩
  cases parse <;> rfl

/-- `mapGet` distributes over append, first hit wins. -/
theorem mapGet_append (l1 l2 : List (String × Term)) (k : String) :
    mapGet (l1 ++ l2) k = (mapGet l1 k).or (mapGet l2 k) := by
  rw [mapGet, mapGet, mapGet, List.find?_append]
  rcases h : l1.find? (fun p => p.1 == k) with _ | v
  · rw [h]
    simp
  · rw [h]
    simp

/-- The staged put loop is a no-op relabelling when the staged keys are
distinct: the result map is the staged pair list itself. -/
theorem foldl_mapPut (pairs : List (String × Term)) :
    ∀ (m : List (String × Term)),
      (((m ++ pairs).map Prod.fst).Nodup) →
      pairs.foldl (fun acc p => mapPut acc p.1 p.2) m = m ++ pairs := by
  induction pairs with
  | nil => intro m _; simp
  | cons p ps ih =>
    intro m h
    have hdisj : ∀ a ∈ m.map Prod.fst, a ∉ (p :: ps).map Prod.fst := by
      have := List.disjoint_of_nodup_append (by simpa using h)
      exact fun a ha => this ha
    have hnotin : m.any (fun q => q.1 == p.1) = false := by
      rw [List.any_eq_false]
      intro q hq
      have : q.1 ∉ (p :: ps).map Prod.fst := hdisj q.1 (List.mem_map_of_mem Prod.fst hq)
      simp only [List.map_cons, List.mem_cons] at this
      simp only [beq_iff_eq]
      exact fun hc => this (Or.inl hc)
    have hput : mapPut m p.1 p.2 = m ++ [p] := by
      rw [mapPut, hnotin]
      simp
    rw [List.foldl_cons, hput, ih (m ++ [p]) (by rw [List.append_assoc]; simpa using h)]
    simp

/-- `buildMap` over distinct keys yields exactly the staged pair list. -/
theorem buildMap_nodup (pairs : List (String × Term))
    (h : (pairs.map Prod.fst).Nodup) : buildMap pairs = .map pairs := by
  rw [buildMap, foldl_mapPut pairs [] (by simpa using h)]
  simp

/-- A color entry is empty or a single binding of its own key. -/
theorem colorEntry_key_or_nil (key : String) (pm fm : UfbxMaterialMap) :
    colorEntry key pm fm = [] ∨ ∃ v, colorEntry key pm fm = [(key, v)] := by
  rw [colorEntry]
  split_ifs with h1 h2
  · exact Or.inr ⟨_, rfl⟩
  · exact Or.inr ⟨_, rfl⟩
  · exact Or.inl rfl

/-- Looking up a different key in a color entry finds nothing. -/
theorem mapGet_colorEntry_ne (key k : String) (pm fm : UfbxMaterialMap)
    (h : (key == k) = false) :
    mapGet (colorEntry key pm fm) k = none := by
  rw [colorEntry]
  split_ifs <;> simp [mapGet, List.find?, h]

/-- Looking up a color entry's own key resolves the fallback chain: PBR
first, then legacy, then absent. -/
theorem mapGet_colorEntry_self (key : String) (pm fm : UfbxMaterialMap) :
    mapGet (colorEntry key pm fm) key
      = (if pm.has_value = true ∧ 3 ≤ pm.value_components then
          some (make_vec3 pm.value_vec3)
        else if fm.has_value = true ∧ 3 ≤ fm.value_components then
          some (make_vec3 fm.value_vec3)
        else none) := by
  rw [colorEntry]
  split_ifs <;> simp [mapGet, List.find?]

/-- The pair list staged by `extract_material` has distinct keys. -/
theorem extract_material_nodup (env : Env) (material : UfbxMaterial) :
    ((([("id", Term.uint material.typed_id),
        ("name", make_string env material.name)]
      ++ colorEntry "diffuse_color" material.pbr.base_color
          material.fbx.diffuse_color
      ++ colorEntry "specular_color" material.pbr.specular_color
          material.fbx.specular_color
      ++ colorEntry "emissive_color" material.pbr.emission_color
          material.fbx.emission_color).map Prod.fst).Nodup) := by
  rcases colorEntry_key_or_nil "diffuse_color" material.pbr.base_color
      material.fbx.diffuse_color with hd | ⟨vd, hd⟩ <;>
    rcases colorEntry_key_or_nil "specular_color" material.pbr.specular_color
      material.fbx.specular_color with hs | ⟨vs, hs⟩ <;>
    rcases colorEntry_key_or_nil "emissive_color" material.pbr.emission_color
      material.fbx.emission_color with he | ⟨ve, he⟩ <;>
    rw [hd, hs, he] <;> simp

/-- Claim C6: each of the three color properties of a material resolves
independently: the PBR source wins when it has a value with at least
three components, else the legacy FBX source under the same test, and the
key is entirely absent when neither qualifies. -/
theorem material_color_fallback (env : Env) (material : UfbxMaterial) :
    (extract_material env material).getKey "diffuse_color"
        = (if material.pbr.base_color.has_value = true ∧
              3 ≤ material.pbr.base_color.value_components then
            some (make_vec3 material.pbr.base_color.value_vec3)
          else if material.fbx.diffuse_color.has_value = true ∧
              3 ≤ material.fbx.diffuse_color.value_components then
            some (make_vec3 material.fbx.diffuse_color.value_vec3)
          else none)
      ∧ (extract_material env material).getKey "specular_color"
        = (if material.pbr.specular_color.has_value = true ∧
              3 ≤ material.pbr.specular_color.value_components then
            some (make_vec3 material.pbr.specular_color.value_vec3)
          else if material.fbx.specular_color.has_value = true ∧
              3 ≤ material.fbx.specular_color.value_components then
            some (make_vec3 material.fbx.specular_color.value_vec3)
          else none)
      ∧ (extract_material env material).getKey "emissive_color"
        = (if material.pbr.emission_color.has_value = true ∧
              3 ≤ material.pbr.emission_color.value_components then
            some (make_vec3 material.pbr.emission_color.value_vec3)
          else if material.fbx.emission_color.has_value = true ∧
              3 ≤ material.fbx.emission_color.value_components then
            some (make_vec3 material.fbx.emission_color.value_vec3)
          else none) := by
  have hm : extract_material env material
      = Term.map
          ([("id", Term.uint material.typed_id),
            ("name", make_string env material.name)]
            ++ colorEntry "diffuse_color" material.pbr.base_color
                material.fbx.diffuse_color
            ++ colorEntry "specular_color" material.pbr.specular_color
                material.fbx.specular_color
            ++ colorEntry "emissive_color" material.pbr.emission_color
                material.fbx.emission_color) := by
    rw [extract_material]
    exact buildMap_nodup _ (extract_material_nodup env material)
  have hbase : ∀ (k : String), ("id" == k) = false → ("name" == k) = false →
      mapGet [("id", Term.uint material.typed_id),
        ("name", make_string env material.name)] k = none := by
    intro k h1 h2
    simp [mapGet, List.find?, h1, h2]
  refine ⟨?_, ?_, ?_⟩
  · rw [hm]
    show mapGet _ "diffuse_color" = _
    rw [mapGet_append, mapGet_append, mapGet_append,
      mapGet_colorEntry_self,
      mapGet_colorEntry_ne "specular_color" "diffuse_color"
        material.pbr.specular_color material.fbx.specular_color (by decide),
      mapGet_colorEntry_ne "emissive_color" "diffuse_color"
        material.pbr.emission_color material.fbx.emission_color (by decide),
      hbase "diffuse_color" (by decide) (by decide)]
    simp
  · rw [hm]
    show mapGet _ "specular_color" = _
    rw [mapGet_append, mapGet_append, mapGet_append,
      mapGet_colorEntry_self,
      mapGet_colorEntry_ne "diffuse_color" "specular_color"
        material.pbr.base_color material.fbx.diffuse_color (by decide),
      mapGet_colorEntry_ne "emissive_color" "specular_color"
        material.pbr.emission_color material.fbx.emission_color (by decide),
      hbase "specular_color" (by decide) (by decide)]
    simp
  · rw [hm]
    show mapGet _ "emissive_color" = _
    rw [mapGet_append, mapGet_append, mapGet_append,
      mapGet_colorEntry_self,
      mapGet_colorEntry_ne "diffuse_color" "emissive_color"
        material.pbr.base_color material.fbx.diffuse_color (by decide),
      mapGet_colorEntry_ne "specular_color" "emissive_color"
        material.pbr.specular_color material.fbx.specular_color (by decide),
      hbase "emissive_color" (by decide) (by decide)]
    simp

/-- Claim C7: the animations list keeps exactly the stacks whose bake
succeeded, one track each, in stack order; in particular with two stacks
where the first fails and the second succeeds, the list holds exactly the
second stack's track. -/
theorem bake_failure_nonfatal (env : Env) (scene : UfbxScene) :
    (extract_scene_data env scene).getKey "animations"
        = some (.list (scene.anim_stacks.filterMap (fun s =>
            s.bakeResult.map (fun baked => extract_animation env baked s))))
      ∧ (∀ (s1 s2 : UfbxAnimStack) (baked2 : UfbxBakedAnim),
          scene.anim_stacks = [s1, s2] → s1.bakeResult = none →
          s2.bakeResult = some baked2 →
          (extract_scene_data env scene).getKey "animations"
            = some (.list [extract_animation env baked2 s2])) := by
  constructor
  · rw [extract_scene_animations]
    rfl
  · intro s1 s2 baked2 hstacks h1 h2
    rw [extract_scene_animations, hstacks]
    simp [stackTrack, h1, h2]

/-- Claim C7, witness: on the concrete scene with a failing first stack
and a succeeding second stack, the animations list holds exactly the
second stack's track. -/
theorem bake_failure_nonfatal_witness :
    (extract_scene_data env0 sceneTwoStacks).getKey "animations"
      = some (.list [extract_animation env0 ⟨[]⟩ stackOkW]) :=
  (bake_failure_nonfatal env0 sceneTwoStacks).2 stackFailW stackOkW ⟨[]⟩ rfl rfl rfl

/-- Claim C10: the string converter emits the empty Latin-1 char list for
a zero-length source string and a binary holding the copied bytes for a
non-empty source string (when its allocation succeeds), so the runtime
representation differs between the two cases; a non-empty string is never
emitted as a char list. -/
theorem make_string_representation (env : Env) (str : UfbxString)
    (halloc : env.alloc str.length = true) :
    (str.length = 0 → make_string env str = .charlist "")
      ∧ (str.length ≠ 0 →
          make_string env str = .binary (str.data.take str.length))
      ∧ (∀ (s : String), str.length ≠ 0 → make_string env str ≠ .charlist s) := by
  refine ⟨?_, ?_, ?_⟩
  · intro h
    rw [make_string, if_pos h]
  · intro h
    rw [make_string, if_neg h, if_pos halloc]
  · intro s h hc
    rw [make_string, if_neg h, if_pos halloc] at hc
    exact absurd hc (by simp)

/-- Claim C10, witness: the empty string becomes the empty char list and
the 3-byte string becomes a binary of its bytes. -/
theorem make_string_representation_witness :
    make_string env0 str0 = Term.charlist ""
      ∧ make_string env0 strABC = Term.binary [65, 66, 67] := by
  refine ⟨(make_string_representation env0 str0 rfl).1 rfl, ?_⟩
  have h := (make_string_representation env0 strABC rfl).2.1 (by decide)
  rw [h]
  rfl

/-- Claim C9: when the native graph's parent/child references are mutually
consistent, every parent_id and every listed child id in the IR's node
collection references a node present in that collection, and the relation
is mutually consistent in both directions. -/
theorem reference_integrity (env : Env) (scene : UfbxScene)
    (hcp : ∀ n ∈ scene.nodes, ∀ (p : Nat), n.parent = some p →
        ∃ m ∈ scene.nodes, m.typed_id = p ∧ n.typed_id ∈ m.children)
    (hpc : ∀ n ∈ scene.nodes, ∀ c ∈ n.children,
        ∃ m ∈ scene.nodes, m.typed_id = c ∧ m.parent = some n.typed_id) :
    (∀ t ∈ scene.nodes.map (fun n => extract_node env n n.typed_id),
        ∀ (p : Nat), t.getKey "parent_id" = some (.uint p) →
        ∃ u ∈ scene.nodes.map (fun n => extract_node env n n.typed_id),
          u.getKey "id" = some (.uint p) ∧
          ∃ (l : List Term), u.getKey "children" = some (.list l) ∧
            ∃ (a : Nat), t.getKey "id" = some (.uint a) ∧ Term.uint a ∈ l)
      ∧ (∀ t ∈ scene.nodes.map (fun n => extract_node env n n.typed_id),
          ∀ (l : List Term), t.getKey "children" = some (.list l) →
          ∀ (c : Nat), Term.uint c ∈ l →
          ∃ u ∈ scene.nodes.map (fun n => extract_node env n n.typed_id),
            u.getKey "id" = some (.uint c) ∧
            u.getKey "parent_id" = t.getKey "id") := by
  constructor
  · intro t ht p hp
    obtain ⟨n, hn, rfl⟩ := List.mem_map.mp ht
    rw [extract_node_parent] at hp
    rcases hpar : n.parent with _ | q
    · rw [hpar] at hp
      simp at hp
    · rw [hpar] at hp
      simp only [Option.map_some', Option.some.injEq, Term.uint.injEq] at hp
      subst hp
      obtain ⟨m, hm, hmid, hmchild⟩ := hcp n hn q hpar
      refine ⟨extract_node env m m.typed_id, List.mem_map_of_mem _ hm, ?_, ?_⟩
      · rw [extract_node_id, hmid]
      · refine ⟨m.children.map Term.uint, ?_, n.typed_id, extract_node_id env n n.typed_id, ?_⟩
        · rw [extract_node_children,
            if_pos (List.length_pos_of_mem hmchild)]
        · exact List.mem_map_of_mem Term.uint hmchild
  · intro t ht l hl c hc
    obtain ⟨n, hn, rfl⟩ := List.mem_map.mp ht
    rw [extract_node_children] at hl
    by_cases hlen : n.children.length > 0
    · rw [if_pos hlen] at hl
      simp only [Option.some.injEq, Term.list.injEq] at hl
      subst hl
      obtain ⟨c', hc'mem, hc'eq⟩ := List.mem_map.mp hc
      replace hc'eq : c' = c := by
        simpa [Term.uint.injEq] using hc'eq
      subst hc'eq
      obtain ⟨m, hm, hmid, hmpar⟩ := hpc n hn c' hc'mem
      refine ⟨extract_node env m m.typed_id, List.mem_map_of_mem _ hm, ?_, ?_⟩
      · rw [extract_node_id, hmid]
      · rw [extract_node_parent, hmpar, extract_node_id]
        rfl
    · rw [if_neg hlen] at hl
      exact absurd hl (by simp)

/-- Claim C9, witness: in the concrete two-node scene where node 0 is the
parent of node 1, both integrity directions hold for the extracted
records. -/
theorem reference_integrity_witness :
    (∀ t ∈ sceneTwoNodes.nodes.map (fun n => extract_node env0 n n.typed_id),
        ∀ (p : Nat), t.getKey "parent_id" = some (.uint p) →
        ∃ u ∈ sceneTwoNodes.nodes.map (fun n => extract_node env0 n n.typed_id),
          u.getKey "id" = some (.uint p) ∧
          ∃ (l : List Term), u.getKey "children" = some (.list l) ∧
            ∃ (a : Nat), t.getKey "id" = some (.uint a) ∧ Term.uint a ∈ l)
      ∧ (∀ t ∈ sceneTwoNodes.nodes.map (fun n => extract_node env0 n n.typed_id),
          ∀ (l : List Term), t.getKey "children" = some (.list l) →
          ∀ (c : Nat), Term.uint c ∈ l →
          ∃ u ∈ sceneTwoNodes.nodes.map (fun n => extract_node env0 n n.typed_id),
            u.getKey "id" = some (.uint c) ∧
            u.getKey "parent_id" = t.getKey "id") :=
  reference_integrity env0 sceneTwoNodes (by decide) (by decide)

/-- Claim C5: a node record carries parent_id exactly when the native node
has a parent and mesh_id exactly when it has a mesh; a mesh record carries
positions exactly when the position attribute exists non-empty, carries
indices only inside that conditional and only when the index buffer is
non-empty, and an indices key never appears without a positions key. -/
theorem optional_field_omission (env : Env) (node : UfbxNode)
    (node_id : Nat) (mesh : UfbxMesh) :
    (extract_node env node node_id).getKey "parent_id"
        = node.parent.map (fun p => Term.uint p)
      ∧ (extract_node env node node_id).getKey "mesh_id"
        = node.mesh.map (fun m => Term.uint m)
      ∧ (extract_mesh env mesh).getKey "positions"
        = (if mesh.vertex_position.exists_ = true ∧
              mesh.vertex_position.values.length > 0 then
            some (make_vec3_list mesh.vertex_position.values)
          else none)
      ∧ (extract_mesh env mesh).getKey "indices"
        = (if (mesh.vertex_position.exists_ = true ∧
              mesh.vertex_position.values.length > 0) ∧
              mesh.vertex_position.indices.length > 0 then
            some (make_uint32_list mesh.vertex_position.indices)
          else none)
      ∧ ((extract_mesh env mesh).getKey "positions" = none →
          (extract_mesh env mesh).getKey "indices" = none) := by
  refine ⟨extract_node_parent env node node_id, extract_node_mesh env node node_id,
    extract_mesh_positions env mesh, extract_mesh_indices env mesh, ?_⟩
  intro hpos
  rw [extract_mesh_indices]
  rw [extract_mesh_positions] at hpos
  by_cases h1 : mesh.vertex_position.exists_ = true ∧
      mesh.vertex_position.values.length > 0
  · rw [if_pos h1] at hpos
    exact absurd hpos (by simp)
  · rw [if_neg (fun hc => h1 hc.1)]

/-- Claim C5, witness: for the concrete mesh whose position attribute is
absent while its index buffer is non-empty, the record has neither a
positions key nor an indices key. -/
theorem optional_field_omission_witness :
    (extract_mesh env0 meshNoPos).getKey "positions" = none
      ∧ (extract_mesh env0 meshNoPos).getKey "indices" = none := by
  have h := optional_field_omission env0 nodeParentW 0 meshNoPos
  have hpos : (extract_mesh env0 meshNoPos).getKey "positions" = none := by
    rw [h.2.2.1]
    rfl
  exact ⟨hpos, h.2.2.2.2 hpos⟩
